import Mathlib

/-!
# Verification of the A12 bypass activation tool

Shallow embedding of the GUID-extraction engine and the workflow
orchestrator of the repository (files `Mac_GUI/activator.py`,
`client/activator.py`, `client/activator_macos.py`), together with
theorems settling the behavioural claims about them.

Byte buffers are modelled as `List Nat` (one `Nat` per byte, values
below 256 in practice; none of the scanning logic depends on a bound).
External commands (log collection, sqlite queries, AFC transport,
curl, reboots) are modelled by explicit environment records recording
their outcomes, and the control flow of the Python code is translated
into pure functions over those environments.
-/

namespace A12

/-! ## Byte-level utilities -/

/-- ASCII hyphen. -/
def hyphenByte : Nat := 45

/-- `[0-9A-Fa-f]` (the GUID regexes are compiled with `re.IGNORECASE`). -/
def isHexDigit (b : Nat) : Bool :=
  (48 ≤ b && b ≤ 57) || (65 ≤ b && b ≤ 70) || (97 ≤ b && b ≤ 102)

/-- `[0-9A-F]`, the character set used by `validate_guid_structure`
(applied to already-uppercased strings). -/
def isUpperHex (b : Nat) : Bool :=
  (48 ≤ b && b ≤ 57) || (65 ≤ b && b ≤ 70)

/-- ASCII uppercase of one byte, modelling `str.upper()` on ASCII data. -/
def toUpperByte (b : Nat) : Nat :=
  if 97 ≤ b && b ≤ 122 then b - 32 else b

/-- The anchor byte pattern `b'BLDatabaseManager'` (17 bytes of ASCII). -/
def blSig : List Nat :=
  [66, 76, 68, 97, 116, 97, 98, 97, 115, 101, 77, 97, 110, 97, 103, 101, 114]

/-- Does the anchor pattern occur in `data` at offset `i`?
(`data[i : i+17] == b'BLDatabaseManager'`; a window shorter than 17
bytes can never be equal, which also covers the out-of-range case.) -/
def matchSigAt (data : List Nat) (i : Nat) : Bool :=
  (data.drop i).take blSig.length == blSig

/-- Does a GUID-shaped (8-4-4-4-12, case-insensitive hex) substring
start at offset `i`? This is the lexical pattern
`[0-9A-F]{8}-[0-9A-F]{4}-[0-9A-F]{4}-[0-9A-F]{4}-[0-9A-F]{12}` with
`re.IGNORECASE`: hyphens at relative offsets 8, 13, 18, 23 and hex
digits everywhere else, 36 bytes total. -/
def guidShapeAt (data : List Nat) (i : Nat) : Bool :=
  i + 36 ≤ data.length &&
  (List.range 36).all (fun j =>
    if j == 8 || j == 13 || j == 18 || j == 23 then
      data.getD (i + j) 0 == hyphenByte
    else
      isHexDigit (data.getD (i + j) 0))

/-- The 36-byte GUID substring starting at `i`, uppercased — the code
does `match.group(1).decode('ascii').upper()` on every match. -/
def guidAt (data : List Nat) (i : Nat) : List Nat :=
  ((data.drop i).take 36).map toUpperByte

/-- Left-to-right scan for matches of a fixed-length pattern, as
`re.finditer` / the `data.find` loops do: try each offset in order,
and after a match continue `step` bytes further (`re.finditer` and the
GUI loop continue past the whole match, i.e. `step` = pattern length;
the scan in `client/activator.py` advances by 1).  `fuel` bounds the
iteration; callers pass `n + 1` which is enough since every iteration
advances the offset by at least one. -/
def scanFrom (n : Nat) (m : Nat → Bool) (step : Nat) : Nat → Nat → List Nat
  | 0, _ => []
  | fuel + 1, i =>
    if n ≤ i then []
    else if m i then i :: scanFrom n m step fuel (i + step)
    else scanFrom n m step fuel (i + 1)

/-- All match offsets of a fixed-length pattern in a buffer of length `n`. -/
def findAll (n : Nat) (m : Nat → Bool) (step : Nat) : List Nat :=
  scanFrom n m step (n + 1) 0

/-! ## Stable descending sort

Python's `list.sort(key=..., reverse=True)` is a stable sort: entries
with equal keys keep their original relative order (the reverse flag
inverts comparisons, it does not reverse the result).  Both scorers
rely on this for their tie-break.  We model it by a stable insertion
sort into descending key order. -/

/-- Insert `x` into `l` in front of the first element whose key does
not exceed `x`'s key.  When keys tie, `x` (which comes from earlier in
the original list) ends up first, matching Python's stability. -/
def insertDesc (f : α → Nat) (x : α) : List α → List α
  | [] => [x]
  | y :: ys => if f y ≤ f x then x :: y :: ys else y :: insertDesc f x ys

/-- Stable sort by key, descending: `xs.sort(key=f, reverse=True)`. -/
def sortDesc (f : α → Nat) : List α → List α
  | [] => []
  | x :: xs => insertDesc f x (sortDesc f xs)

/-- First occurrences of the elements of `l`, in order of first
appearance — the iteration order of `collections.Counter(l).items()`
(a Python dict preserves first-insertion order). -/
def dedupFirst [BEq α] : List α → List α :=
  go []
where
  go (seen : List α) : List α → List α
    | [] => []
    | x :: xs => if seen.contains x then go seen xs else x :: go (x :: seen) xs

/-- Maximal key over a list (0 when empty; keys are naturals). -/
def maxKey (f : α → Nat) (l : List α) : Nat :=
  (l.map f).foldr max 0

/-! ## GUID structural validation

`validate_guid` in `client/activator_macos.py`:

    if not UUID_PATTERN.match(guid): return False
    parts = guid.split('-')
    v = parts[2][0]
    x = parts[3][0]
    return v == '4' and x in '89AB'

After the full `UUID_PATTERN` match the hyphens sit exactly at offsets
8, 13, 18, 23, so `parts[2][0]` is the byte at offset 14 and
`parts[3][0]` the byte at offset 19.  52 is `'4'`; 56, 57, 65, 66 are
`'8'`, `'9'`, `'A'`, `'B'`. -/

/-- Full-string match of `UUID_PATTERN` (anchored 8-4-4-4-12 shape). -/
def uuidShape (g : List Nat) : Bool :=
  g.length == 36 &&
  (List.range 36).all (fun j =>
    if j == 8 || j == 13 || j == 18 || j == 23 then g.getD j 0 == hyphenByte
    else isHexDigit (g.getD j 0))

/-- `validate_guid` of `client/activator_macos.py`. -/
def validate_guid (g : List Nat) : Bool :=
  uuidShape g && g.getD 14 0 == 52 &&
  (g.getD 19 0 == 56 || g.getD 19 0 == 57 || g.getD 19 0 == 65 || g.getD 19 0 == 66)

/-- `validate_guid_structure` of `Mac_GUI/activator.py`, translated
clause by clause: split on `'-'`, check five parts of lengths
8/4/4/4/12, check every non-hyphen character is uppercase hex
(`set('0123456789ABCDEF')`), check the version nibble (`parts[2][0]`)
is `'4'` and the variant nibble (`parts[3][0]`) is one of `'89AB'`.
An index error inside the Python `try` returns `False`; `headD _ 0`
yields 0 ≠ 52 on an empty part, matching that. -/
def validate_guid_structure (g : List Nat) : Bool :=
  let parts := g.splitOn hyphenByte
  match parts with
  | [p0, p1, p2, p3, p4] =>
    p0.length == 8 && p1.length == 4 && p2.length == 4 && p3.length == 4 &&
    p4.length == 12 &&
    (g.filter (fun c => c != hyphenByte)).all isUpperHex &&
    p2.headD 0 == 52 &&
    (p3.headD 0 == 56 || p3.headD 0 == 57 || p3.headD 0 == 65 || p3.headD 0 == 66)
  | _ => false

/-! ## Log Scanner — `client/activator_macos.py` -/

/-- Anchor offsets: `re.finditer(b'BLDatabaseManager', data)`
(non-overlapping, left to right; the literal cannot overlap itself). -/
def blHits (data : List Nat) : List Nat :=
  findAll data.length (matchSigAt data) blSig.length

/-- Candidates extracted from the ±512-byte window around one anchor
occurrence at `pos`:

    window = data[max(0, pos-512):pos+512]
    for g_match in guid_pat.finditer(window):
        guid_raw = g_match.group(1).decode('ascii').upper()
        if validate_guid(guid_raw):
            rel_pos = g_match.start() + max(0, pos-512) - pos
            candidates.append((guid_raw, rel_pos))

(`pos - 512` on `Nat` is the clipped `max(0, pos-512)`; Python slicing
clips the upper bound to the buffer length just as `take` does.) -/
def windowCandidates (data : List Nat) (pos : Nat) : List (List Nat × Int) :=
  let s := pos - 512
  let window := (data.drop s).take (pos + 512 - s)
  (findAll window.length (guidShapeAt window) 36).filterMap fun j =>
    let g := guidAt window j
    if validate_guid g then some (g, (j : Int) + (s : Int) - (pos : Int)) else none

/-- `parse_tracev3_guids` of `client/activator_macos.py`: the combined
candidate list over all anchor occurrences, in scan order. -/
def parse_tracev3_guids (data : List Nat) : List (List Nat × Int) :=
  (blHits data).flatMap (windowCandidates data)

/-- `analyze_guids` of `client/activator_macos.py`:

    if not candidates: return None
    counter = Counter(guid for guid, _ in candidates)
    scored = []
    for guid, count in counter.items():
        proximity_bonus = sum(2 for _, p in candidates if guid == _ and abs(p) < 32)
        score = count * 10 + proximity_bonus
        scored.append((guid, score))
    scored.sort(key=lambda x: x[1], reverse=True)
    return scored[0][0] if scored else None

`macosScored` is the `scored` list right before the sort (`Counter`
iteration order is first-appearance order; the generator variable `_`
shadows the guid, so `guid == _` compares against each candidate's
guid). -/
def macosScored (cands : List (List Nat × Int)) : List (List Nat × Nat) :=
  (dedupFirst (cands.map Prod.fst)).map fun g =>
    let count := (cands.filter (fun c => c.1 == g)).length
    let bonus := 2 * (cands.filter (fun c => c.1 == g && c.2.natAbs < 32)).length
    (g, count * 10 + bonus)

def analyze_guids (cands : List (List Nat × Int)) : Option (List Nat) :=
  match cands with
  | [] => none
  | _ => ((sortDesc Prod.snd (macosScored cands)).head?).map Prod.fst

/-! ## Log Scanner — `Mac_GUI/activator.py` -/

/-- A Candidate record built by `extract_guid_candidates` (the
`context` diagnostic string stored alongside is never consumed by the
scorer and is omitted). -/
structure GCand where
  guid : List Nat
  position : Int
deriving DecidableEq, Repr

/-- `extract_guid_candidates(data, context_pos, window_size=512)` of
`Mac_GUI/activator.py`: matches of the GUID regex inside
`data[max(0, pos-512):min(len(data), pos+512)]`, uppercased, kept only
when `validate_guid_structure` passes, with signed offset
`match.start() + start - context_pos`. -/
def extract_guid_candidates (data : List Nat) (pos : Nat) : List GCand :=
  let s := pos - 512
  let window := (data.drop s).take (pos + 512 - s)
  (findAll window.length (guidShapeAt window) 36).filterMap fun j =>
    let g := guidAt window j
    if validate_guid_structure g then
      some { guid := g, position := (j : Int) + (s : Int) - (pos : Int) }
    else none

/-- Anchor offsets used by `get_guid_enhanced`: the positions recorded
by `parse_tracev3_structure` for the pattern `b'BLDatabaseManager'`
(a `data.find` loop advancing by the pattern length on each hit). -/
def guiBlHits (data : List Nat) : List Nat :=
  findAll data.length (matchSigAt data) blSig.length

/-- One scored entry of `analyze_guid_confidence`: a
`(guid, score, occurrence count)` triple. -/
structure ScoredGuid where
  guid : List Nat
  score : Nat
  count : Nat
deriving DecidableEq, Repr

/-- The scored (but not yet sorted) group list of
`analyze_guid_confidence`: one entry per distinct GUID in first-
appearance order (`Counter` iteration order), with

    score = count * 10
          + 5 * |{positions p of that GUID with abs(p) < 100}|
          + 3 * |{positions p of that GUID with p < 0}|

(the Python guards `if close_positions:` / `if before_positions:` are
no-ops when the filtered lists are empty, so the unconditional sum is
the same value). -/
def scoredGroups (cands : List GCand) : List ScoredGuid :=
  (dedupFirst (cands.map GCand.guid)).map fun g =>
    let positions := (cands.filter (fun c => c.guid == g)).map GCand.position
    let count := (cands.filter (fun c => c.guid == g)).length
    let closeCount := (positions.filter (fun p => p.natAbs < 100)).length
    let beforeCount := (positions.filter (fun p => p < 0)).length
    { guid := g
      score := count * 10 + closeCount * 5 + beforeCount * 3
      count := count }

/-- `analyze_guid_confidence` of `Mac_GUI/activator.py`: `None` on an
empty candidate list, otherwise the scored groups sorted by score
descending (stable, so ties keep first-appearance order). -/
def analyze_guid_confidence (cands : List GCand) : Option (List ScoredGuid) :=
  match cands with
  | [] => none
  | _ => some (sortDesc ScoredGuid.score (scoredGroups cands))

/-- Confidence tiers of `get_guid_enhanced`. -/
inductive Tier
  | high
  | medium
  | low
deriving DecidableEq, Repr

/-- The tier assigned to a score in `get_guid_enhanced`:
`>= 30` HIGH, `elif >= 15` MEDIUM, else LOW. -/
def confidenceTier (s : Nat) : Tier :=
  if 30 ≤ s then .high else if 15 ≤ s then .medium else .low

/-- The pure extraction decision of `get_guid_enhanced` on a read
buffer (everything after the tracev3 bytes are in memory): collect
candidates around every `BLDatabaseManager` occurrence, bail out on an
empty list, score, take the top entry, and ask for confirmation unless
the tier is HIGH.  `confirmOk` is the outcome of
`confirm_guid_manual` (always `true` when `auto_confirm_guid` is set). -/
def get_guid_enhanced_core (confirmOk : Bool) (data : List Nat) : Option (List Nat) :=
  let allCandidates := (guiBlHits data).flatMap (extract_guid_candidates data)
  if allCandidates.isEmpty then none
  else
    match analyze_guid_confidence allCandidates with
    | none => none
    | some scored =>
      match scored with
      | [] => none
      | best :: _ =>
        if 30 ≤ best.score then some best.guid
        else if confirmOk then some best.guid else none

/-! ## Log Scanner — `client/activator.py` (`get_guid_auto`)

The simplified client scans with an advance-by-1 `data.find` loop,
uses a ±1024-byte window around each hit (upper end
`pos + len(needle) + 1024`), and filters matches only through the
"not trash" test

    clean = guid.replace('0', '').replace('-', '')
    if len(clean) >= 8: candidates.append(guid)

— it never checks version or variant nibbles. -/

/-- The "not trash" filter of `client/activator.py`: at least 8
characters besides `'0'` and `'-'`. -/
def notTrash (g : List Nat) : Bool :=
  8 ≤ (g.filter (fun c => c != 48 && c != hyphenByte)).length

/-- GUID-shaped matches (uppercased) in the ±1KB window around one
anchor hit that survive the "not trash" filter. -/
def clientWindowGuids (data : List Nat) (pos : Nat) : List (List Nat) :=
  let s := pos - 1024
  let window := (data.drop s).take (pos + blSig.length + 1024 - s)
  (findAll window.length (guidShapeAt window) 36).filterMap fun j =>
    let g := guidAt window j
    if notTrash g then some g else none

/-- The candidate list accumulated by `get_guid_auto` of
`client/activator.py` over all anchor hits (found with `pos += 1`). -/
def clientCandidates (data : List Nat) : List (List Nat) :=
  (findAll data.length (matchSigAt data) 1).flatMap (clientWindowGuids data)

/-- The pure decision of `get_guid_auto` of `client/activator.py` on a
read buffer: `None` when the anchor never occurs or no candidate
survives; otherwise `counts.most_common(1)[0]` — the most frequent
candidate, first-appearance order breaking ties (both the confident
and the low-confidence branch return it). -/
def clientExtract (data : List Nat) : Option (List Nat) :=
  let anchors := findAll data.length (matchSigAt data) 1
  if anchors.isEmpty then none
  else
    let candidates := anchors.flatMap (clientWindowGuids data)
    if candidates.isEmpty then none
    else
      let counts := (dedupFirst candidates).map fun g =>
        (g, (candidates.filter (fun c => c == g)).length)
      ((sortDesc Prod.snd counts).head?).map Prod.fst

/-! ## Payload database validation and device-side ordering
(`client/activator_macos.py run`, steps 6–10, and
`client/activator.py BypassAutomation.run`, steps 4–5)

The sqlite calls are external effects; a downloaded payload file is
modelled by whether sqlite can open and query it, whether the table
`asset` exists (`SELECT count(*) FROM sqlite_master WHERE type='table'
AND name='asset'`) and how many rows `SELECT COUNT(*) FROM asset`
reports.  Every exception raised inside the `try` (a malformed file
included) is caught and treated as a validation failure. -/

/-- The observable shape of a downloaded final-stage payload file. -/
structure PayloadDB where
  wellFormed : Bool
  hasAssetTable : Bool
  assetRows : Nat
deriving Repr

/-- The validation gate both `run` variants apply: the file opens as a
database, the `asset` table exists, and it has at least one row. -/
def validatePayload (db : PayloadDB) : Bool :=
  db.wellFormed && db.hasAssetTable && decide (0 < db.assetRows)

namespace MacosRun

/-- Actions of the tail of `client/activator_macos.py run` (from the
final-payload download to the final reboot), in execution order. -/
inductive Act
  | download (ok : Bool)
  | validationPassed
  | validationFailed
  | afcRm
  | afcPush
  | afcPull
  | rebootCmd
  | fatalAbort
deriving DecidableEq, Repr

/-- Device-side mutations in the sense of claim C3: `afc rm`, `afc
push` and the pull+push plist copies (a pull alone only reads). -/
def isDeviceMutation : Act → Bool
  | .afcRm => true
  | .afcPush => true
  | _ => false

/-- Outcomes of the external commands the tail of `run` invokes. -/
structure Env where
  downloadOk : Bool
  db : PayloadDB
  uploadOk : Bool
  plistPull1 : Bool
  plistPull2 : Bool

/-- One plist relocation stage: `pull src` and, when it succeeds,
`push dst` (a failed pull only logs a warning and skips the push; the
push's own exit code only changes the log message). -/
def plistStage (pullOk : Bool) : List Act :=
  if pullOk then [.afcPull, .afcPush] else [.afcPull]

/-- The tail of `client/activator_macos.py run` as an action trace:

    step 6  download final payload       (failure raises → abort)
            validate database            (failure raises → abort)
    step 7  rm ×3, push payload          (push failure raises → abort)
    step 8  reboot, pull/push plist to /Books/
    step 9  reboot, pull/push plist back
    step 10 final reboot
-/
def runFromDownload (env : Env) : List Act :=
  if !env.downloadOk then [.download false, .fatalAbort]
  else if !validatePayload env.db then
    [.download true, .validationFailed, .fatalAbort]
  else
    [.download true, .validationPassed, .afcRm, .afcRm, .afcRm, .afcPush] ++
    if !env.uploadOk then [.fatalAbort]
    else
      [.rebootCmd] ++ plistStage env.plistPull1 ++
      [.rebootCmd] ++ plistStage env.plistPull2 ++
      [.rebootCmd]

end MacosRun

/-! ## Transport backends and the mount fallback
(`client/activator.py`: `mount_afc`, `BypassAutomation.run` step 5) -/

namespace ClientRun

/-- The two transport backends: `self.afc_mode` is `"ifuse"` (local
mount) or `"pymobiledevice3"` (command backend). -/
inductive Backend
  | ifuse
  | cmd
deriving DecidableEq, Repr

/-- Transport operations of the upload step, tagged with the backend
that carried them out. -/
inductive Op
  | removeTarget
  | pushPayload
deriving DecidableEq, Repr

/-- Outcomes of the external commands the upload step can invoke. -/
structure Env where
  /-- `mount` output already lists the mount point. -/
  alreadyMounted : Bool
  /-- success of the i-th `ifuse` invocation (0 ≤ i < 5). -/
  ifuseTry : Nat → Bool
  /-- the target file already exists under the mount point. -/
  targetExists : Bool
  /-- the `pymobiledevice3 afc push` exits 0. -/
  pushOk : Bool

/-- `mount_afc`: trivially true for the command backend; for the mount
backend, true when the mount point is already mounted or one of up to
5 `ifuse` attempts (with a fixed 2-second delay between them) exits 0. -/
def mount_afc (env : Env) : Backend → Bool
  | .cmd => true
  | .ifuse => env.alreadyMounted || (List.range 5).any env.ifuseTry

/-- The upload step of `run` (step 5): with the mount backend it first
(re)mounts, downgrading to the command backend for good when mounting
fails; afterwards the remove+push pair goes through whichever backend
the session now holds.  Returns the session's backend after the step
and the tagged transport operations it performed (`true` on the push
marks the fatal-failure exit). -/
def uploadPhase (env : Env) (mode : Backend) :
    Backend × List (Backend × Op) × Bool :=
  let mode' : Backend :=
    match mode with
    | .ifuse => if mount_afc env .ifuse then .ifuse else .cmd
    | .cmd => .cmd
  match mode' with
  | .ifuse =>
    (.ifuse,
      (if env.targetExists then [(Backend.ifuse, Op.removeTarget)] else []) ++
        [(Backend.ifuse, Op.pushPayload)],
      false)
  | .cmd =>
    (.cmd, [(Backend.cmd, Op.removeTarget), (Backend.cmd, Op.pushPayload)],
      !env.pushOk)

/-- Steps 4–5 of `client/activator.py run` after the final payload is
on disk: validate the database (`sys.exit(1)` on failure, before any
AFC call) and only then run the upload step.  Returns the tagged
transport operations performed and whether the run aborted. -/
def runFromValidate (env : Env) (db : PayloadDB) (mode : Backend) :
    List (Backend × Op) × Bool :=
  if !validatePayload db then ([], true)
  else ((uploadPhase env mode).2.1, (uploadPhase env mode).2.2)

end ClientRun

/-! ## GUID auto-acquisition retry loops
(`Mac_GUI/activator.py`: `get_guid_auto_with_retry` and the fallback in
`run`; `client/activator_macos.py`: `get_guid_auto`) -/

namespace Retry

/-- Events of one pass of the retry loop. -/
inductive Ev
  | attemptEv (k : Nat)
  | rebootEv
  | redetectEv
  | sleepEv
deriving DecidableEq, Repr

/-- Outcomes of the external world across attempts: `attemptResult k`
is what the k-th (1-based) log-collect-and-extract cycle returns. -/
structure Env where
  attemptResult : Nat → Option (List Nat)

/-- `get_guid_auto_with_retry` of `Mac_GUI/activator.py`:

    self.attempt_count = 0
    while self.attempt_count < self.max_attempts:     # max_attempts = 10
        guid = self.get_guid_enhanced()               # increments attempt_count
        if guid: return guid
        if self.attempt_count < self.max_attempts:
            self.reboot_device(); self.detect_device(); time.sleep(5)
    return None

`count` is `self.attempt_count` entering the iteration; `fuel` bounds
recursion and is always at least the remaining iterations. -/
def loopAux (env : Env) : Nat → Nat → Option (List Nat) × Nat × List Ev
  | count, 0 => (none, count, [])
  | count, fuel + 1 =>
    if 10 ≤ count then (none, count, [])
    else
      match env.attemptResult (count + 1) with
      | some g => (some g, count + 1, [Ev.attemptEv (count + 1)])
      | none =>
        if count + 1 < 10 then
          ((loopAux env (count + 1) fuel).1, (loopAux env (count + 1) fuel).2.1,
            Ev.attemptEv (count + 1) :: Ev.rebootEv :: Ev.redetectEv ::
              Ev.sleepEv :: (loopAux env (count + 1) fuel).2.2)
        else (none, count + 1, [Ev.attemptEv (count + 1)])

/-- `get_guid_auto_with_retry` run from a fresh counter: returns the
accepted GUID (if any), the final `attempt_count`, and the event
trace. -/
def get_guid_auto_with_retry (env : Env) : Option (List Nat) × Nat × List Ev :=
  loopAux env 0 10

/-- The GUID-choice step of `Mac_GUI/activator.py run` for option 1:
use the auto-detected GUID when the retry loop produced one, otherwise
fall back to `get_guid_manual()` (`manualG` is what the operator
types).  The boolean records whether manual entry was used. -/
def guiGuidStep (env : Env) (manualG : List Nat) : List Nat × Bool :=
  match (get_guid_auto_with_retry env).1 with
  | some g => (g, false)
  | none => (manualG, true)

/-- `get_guid_auto` of `client/activator_macos.py`:

    for attempt in range(1, max_attempts + 1):        # max_attempts = 10
        guid = collect_and_extract_guid()
        if guid: return guid
        if attempt < max_attempts:
            reboot_device(); detect_device(); time.sleep(3)
    raise RuntimeError("GUID auto-detection failed after all attempts")

Exhaustion raises — the caller never reaches manual entry. -/
def macosLoopAux (env : Env) : Nat → Nat → Except Unit (List Nat) × List Ev
  | _, 0 => (.error (), [])
  | attempt, fuel + 1 =>
    if 10 < attempt then (.error (), [])
    else
      match env.attemptResult attempt with
      | some g => (.ok g, [Ev.attemptEv attempt])
      | none =>
        if attempt < 10 then
          ((macosLoopAux env (attempt + 1) fuel).1,
            Ev.attemptEv attempt :: Ev.rebootEv :: Ev.redetectEv :: Ev.sleepEv
              :: (macosLoopAux env (attempt + 1) fuel).2)
        else (.error (), [Ev.attemptEv attempt])

/-- `get_guid_auto` of `client/activator_macos.py` (attempts start at 1). -/
def macos_get_guid_auto (env : Env) : Except Unit (List Nat) × List Ev :=
  macosLoopAux env 1 10

/-- Number of attempts recorded in a trace. -/
def attemptsIn : List Ev → Nat
  | [] => 0
  | .attemptEv _ :: tr => attemptsIn tr + 1
  | _ :: tr => attemptsIn tr

/-- Number of reboots recorded in a trace. -/
def rebootsIn : List Ev → Nat
  | [] => 0
  | .rebootEv :: tr => rebootsIn tr + 1
  | _ :: tr => rebootsIn tr

/-- An environment in which every extraction attempt fails. -/
def envAllFail : Env :=
  { attemptResult := fun _ => none }

end Retry

/-! ## Per-attempt log-archive cleanup (claim C6)

`collect_and_extract_guid` (`client/activator_macos.py`),
`get_guid_enhanced` (`Mac_GUI/activator.py`) and `get_guid_auto`
(`client/activator.py`) each create a temporary `<udid>.logarchive`
directory through the external `syslog collect` command.  The model
tracks whether that directory still exists when the attempt returns.
`dirCreated` records whether a *failed* collect command left the
directory behind (a successful collect always creates it). -/

namespace Cleanup

/-- Cleanup-relevant events of one extraction attempt. -/
inductive Ev
  | preRemoveDir
  | collectCall (ok : Bool)
  | removeDir
deriving DecidableEq, Repr

/-- External outcomes of one extraction attempt. -/
structure Env where
  /-- `pymobiledevice3 syslog collect` exits 0. -/
  collectOk : Bool
  /-- a failed collect nevertheless created the directory. -/
  dirCreated : Bool
  /-- `logdata.LiveData.tracev3` exists inside the archive. -/
  tracePresent : Bool
  /-- what parsing the trace yields. -/
  parseResult : Option (List Nat)

/-- `collect_and_extract_guid` of `client/activator_macos.py`.
`d0` says whether a leftover archive from an earlier attempt exists;
the function first removes it (`if log_dir.exists(): shutil.rmtree`).
The collect-failure and missing-tracev3 returns happen *before* the
`try`, so only the parse is covered by the `finally: shutil.rmtree`.
Result: (returned GUID, directory still exists at return, events). -/
def macosAttempt (env : Env) (d0 : Bool) :
    Option (List Nat) × Bool × List Ev :=
  let pre := if d0 then [Ev.preRemoveDir] else []
  if !env.collectOk then
    (none, env.dirCreated, pre ++ [Ev.collectCall false])
  else if !env.tracePresent then
    (none, true, pre ++ [Ev.collectCall true])
  else
    (env.parseResult, false, pre ++ [Ev.collectCall true, Ev.removeDir])

/-- The cleanup skeleton of `get_guid_enhanced` of
`Mac_GUI/activator.py`: the whole body — log collection included —
sits inside `try: ... finally: if os.path.exists(log_path):
shutil.rmtree(log_path)`, so every exit path removes the directory
when it exists. -/
def guiAttempt (env : Env) : Option (List Nat) × Bool × List Ev :=
  if !env.collectOk then
    (none, false, [Ev.collectCall false] ++
      if env.dirCreated then [Ev.removeDir] else [])
  else if !env.tracePresent then
    (none, false, [Ev.collectCall true, Ev.removeDir])
  else
    (env.parseResult, false, [Ev.collectCall true, Ev.removeDir])

/-- The cleanup skeleton of `get_guid_auto` of `client/activator.py`:
leftover archives are removed up front; a failed collect returns with
no cleanup; a missing tracev3 is followed by an explicit
`shutil.rmtree(log_path)`; the scan itself is wrapped in
`try: ... finally: shutil.rmtree`. -/
def clientAttempt (env : Env) (d0 : Bool) :
    Option (List Nat) × Bool × List Ev :=
  let pre := if d0 then [Ev.preRemoveDir] else []
  if !env.collectOk then
    (none, env.dirCreated, pre ++ [Ev.collectCall false])
  else if !env.tracePresent then
    (none, false, pre ++ [Ev.collectCall true, Ev.removeDir])
  else
    (env.parseResult, false, pre ++ [Ev.collectCall true, Ev.removeDir])

end Cleanup

/-! ## Process exit codes (claim C7)

Each variant's `__main__` block wraps its workflow in
`try/except KeyboardInterrupt/except Exception`.  A run that returns
normally falls off the end of the script (exit 0); `sys.exit(1)`
raised inside `run` is a `SystemExit`, which `except Exception` does
not catch, so it reaches the interpreter as exit code 1 — the same
code the generic handler uses. -/

/-- How a top-level run ends. -/
inductive RunOutcome
  | success
  | interrupted
  | fatalError
deriving DecidableEq, Repr

/-- `Mac_GUI/activator.py` `__main__`: interrupt → `sys.exit(0)`,
any other exception → `sys.exit(1)`. -/
def macGuiExitCode : RunOutcome → Nat
  | .success => 0
  | .interrupted => 0
  | .fatalError => 1

/-- `client/activator.py` `__main__`: interrupt → `sys.exit(0)`,
any other exception → `sys.exit(1)`. -/
def clientExitCode : RunOutcome → Nat
  | .success => 0
  | .interrupted => 0
  | .fatalError => 1

/-- `client/activator_macos.py` `__main__`: the `KeyboardInterrupt`
handler calls `sys.exit(1)`. -/
def macosExitCode : RunOutcome → Nat
  | .success => 0
  | .interrupted => 1
  | .fatalError => 1

/-! ## Concrete test fixtures -/

/-- The sample GUID `2A22A82B-C342-444D-972F-5270FB5080DF` displayed
by `get_guid_manual` (version nibble `4`, variant nibble `9`), as
ASCII bytes. -/
def sampleGuid : List Nat :=
  [50, 65, 50, 50, 65, 56, 50, 66, 45, 67, 51, 52, 50, 45, 52, 52, 52, 68,
   45, 57, 55, 50, 70, 45, 53, 50, 55, 48, 70, 66, 53, 48, 56, 48, 68, 70]

/-- `11111111-1111-1111-1111-111111111111`: lexically a perfect
8-4-4-4-12 hex string, but its version nibble is `1` and its variant
nibble is `1`. -/
def badVersionGuid : List Nat :=
  [49, 49, 49, 49, 49, 49, 49, 49, 45, 49, 49, 49, 49, 45, 49, 49, 49, 49,
   45, 49, 49, 49, 49, 45, 49, 49, 49, 49, 49, 49, 49, 49, 49, 49, 49, 49]

/-! ## Lemmas about the stable descending sort -/

theorem mem_insertDesc (f : α → Nat) (x a : α) (l : List α) :
    a ∈ insertDesc f x l ↔ a = x ∨ a ∈ l := by
  induction l with
  | nil => simp [insertDesc]
  | cons y ys ih =>
    by_cases h : f y ≤ f x
    · simp [insertDesc, h]
    · simp only [insertDesc, if_neg h, List.mem_cons, ih]
      tauto

theorem length_insertDesc (f : α → Nat) (x : α) (l : List α) :
    (insertDesc f x l).length = l.length + 1 := by
  induction l with
  | nil => rfl
  | cons y ys ih =>
    by_cases h : f y ≤ f x <;> simp [insertDesc, h, ih]

theorem length_sortDesc (f : α → Nat) (l : List α) :
    (sortDesc f l).length = l.length := by
  induction l with
  | nil => rfl
  | cons x xs ih => simp [sortDesc, length_insertDesc, ih]

theorem mem_sortDesc (f : α → Nat) (a : α) (l : List α) :
    a ∈ sortDesc f l ↔ a ∈ l := by
  induction l with
  | nil => simp [sortDesc]
  | cons x xs ih => simp [sortDesc, mem_insertDesc, ih]

theorem filter_insertDesc (f : α → Nat) (s : Nat) (x : α) (l : List α) :
    (insertDesc f x l).filter (fun a => f a == s) =
      if f x = s then x :: l.filter (fun a => f a == s)
      else l.filter (fun a => f a == s) := by
  induction l with
  | nil =>
    by_cases h : f x = s <;> simp [insertDesc, h]
  | cons y ys ih =>
    by_cases h : f y ≤ f x
    · rw [insertDesc, if_pos h]
      by_cases hx : f x = s <;> by_cases hy : f y = s <;>
        simp [List.filter_cons, hx, hy]
    · have hxy : f x < f y := lt_of_not_le h
      rw [insertDesc, if_neg h]
      by_cases hx : f x = s
      · have hy : ¬f y = s := by omega
        simp [List.filter_cons, hy, ih, hx]
      · by_cases hy : f y = s <;> simp [List.filter_cons, hy, ih, hx]

theorem filter_sortDesc (f : α → Nat) (s : Nat) (l : List α) :
    (sortDesc f l).filter (fun a => f a == s) = l.filter (fun a => f a == s) := by
  induction l with
  | nil => rfl
  | cons x xs ih =>
    rw [sortDesc, filter_insertDesc]
    by_cases h : f x = s <;> simp [List.filter_cons, h, ih]

theorem pairwise_insertDesc (f : α → Nat) (x : α) (l : List α)
    (h : l.Pairwise (fun a b => f b ≤ f a)) :
    (insertDesc f x l).Pairwise (fun a b => f b ≤ f a) := by
  induction l with
  | nil => simp [insertDesc]
  | cons y ys ih =>
    rcases List.pairwise_cons.1 h with ⟨hy, hys⟩
    by_cases hle : f y ≤ f x
    · rw [insertDesc, if_pos hle]
      refine List.pairwise_cons.2 ⟨?_, h⟩
      intro b hb
      rcases List.mem_cons.1 hb with rfl | hb
      · exact hle
      · exact le_trans (hy b hb) hle
    · rw [insertDesc, if_neg hle]
      refine List.pairwise_cons.2 ⟨?_, ih hys⟩
      intro b hb
      rcases (mem_insertDesc f x b ys).1 hb with rfl | hb
      · exact le_of_lt (lt_of_not_le hle)
      · exact hy b hb

theorem pairwise_sortDesc (f : α → Nat) (l : List α) :
    (sortDesc f l).Pairwise (fun a b => f b ≤ f a) := by
  induction l with
  | nil => simp [sortDesc]
  | cons x xs ih => exact pairwise_insertDesc f x _ ih

theorem maxKey_cons (f : α → Nat) (x : α) (xs : List α) :
    maxKey f (x :: xs) = max (f x) (maxKey f xs) := rfl

theorem le_maxKey (f : α → Nat) (a : α) (l : List α) (h : a ∈ l) :
    f a ≤ maxKey f l := by
  induction l with
  | nil => cases h
  | cons x xs ih =>
    rw [maxKey_cons]
    rcases List.mem_cons.1 h with rfl | h
    · exact Nat.le_max_left _ _
    · exact le_trans (ih h) (Nat.le_max_right _ _)

theorem maxKey_mem (f : α → Nat) (l : List α) (h : l ≠ []) :
    ∃ a ∈ l, f a = maxKey f l := by
  induction l with
  | nil => exact absurd rfl h
  | cons x xs ih =>
    rcases eq_or_ne xs [] with rfl | hxs
    · exact ⟨x, List.mem_cons_self _ _, by simp [maxKey]⟩
    · rcases ih hxs with ⟨a, ha, hfa⟩
      rcases le_total (maxKey f xs) (f x) with hle | hle
      · exact ⟨x, List.mem_cons_self _ _, by rw [maxKey_cons]; omega⟩
      · exact ⟨a, List.mem_cons_of_mem _ ha, by rw [maxKey_cons, hfa]; omega⟩

/-- The head of the stable descending sort is the *first* element
(in original order) carrying the maximal key: sortedness puts a
maximal-key element in front, stability makes it the earliest one. -/
theorem sortDesc_head_eq_filter_max (f : α → Nat) (l : List α) (h : l ≠ []) :
    (sortDesc f l).head? = (l.filter (fun a => f a == maxKey f l)).head? := by
  obtain ⟨hd, tl, heq⟩ : ∃ hd tl, sortDesc f l = hd :: tl := by
    cases hs : sortDesc f l with
    | nil =>
      exfalso
      have := length_sortDesc f l
      rw [hs] at this
      exact h (List.length_eq_zero.1 this.symm)
    | cons a as => exact ⟨a, as, rfl⟩
  have hmem : hd ∈ l := (mem_sortDesc f hd l).1 (heq ▸ List.mem_cons_self _ _)
  have h1 : f hd ≤ maxKey f l := le_maxKey f hd l hmem
  obtain ⟨a, ha, hfa⟩ := maxKey_mem f l h
  have ha2 : a ∈ hd :: tl := heq ▸ (mem_sortDesc f a l).2 ha
  have hpw := pairwise_sortDesc f l
  rw [heq] at hpw
  have h2 : maxKey f l ≤ f hd := by
    rcases List.mem_cons.1 ha2 with rfl | hat
    · omega
    · exact hfa ▸ (List.pairwise_cons.1 hpw).1 a hat
  have hhd : (f hd == maxKey f l) = true := by
    simp only [beq_iff_eq]
    omega
  calc (sortDesc f l).head? = some hd := by rw [heq]; rfl
    _ = ((sortDesc f l).filter (fun a => f a == maxKey f l)).head? := by
        rw [heq]
        simp [List.filter_cons, hhd]
    _ = (l.filter (fun a => f a == maxKey f l)).head? := by
        rw [filter_sortDesc]

/-! ## Lemmas about `dedupFirst` and the scanners -/

theorem mem_dedupFirst_go [BEq α] (l : List α) :
    ∀ (seen : List α) (a : α), a ∈ dedupFirst.go seen l → a ∈ l := by
  induction l with
  | nil => intro seen a h; cases h
  | cons x xs ih =>
    intro seen a h
    rw [dedupFirst.go] at h
    by_cases hc : seen.contains x
    · rw [if_pos hc] at h
      exact List.mem_cons_of_mem _ (ih _ a h)
    · rw [if_neg hc] at h
      rcases List.mem_cons.1 h with rfl | h
      · exact List.mem_cons_self _ _
      · exact List.mem_cons_of_mem _ (ih _ a h)

theorem mem_dedupFirst [BEq α] (l : List α) (a : α) (h : a ∈ dedupFirst l) :
    a ∈ l :=
  mem_dedupFirst_go l [] a h

theorem dedupFirst_cons [BEq α] (x : α) (xs : List α) :
    dedupFirst (x :: xs) = x :: dedupFirst.go [x] xs := by
  rw [dedupFirst, dedupFirst.go]
  simp [List.contains]

theorem scanFrom_eq_nil (n : Nat) (m : Nat → Bool) (step : Nat)
    (h : ∀ i, i < n → m i = false) :
    ∀ (fuel i : Nat), scanFrom n m step fuel i = [] := by
  intro fuel
  induction fuel with
  | zero => intro i; rfl
  | succ fuel ih =>
    intro i
    rw [scanFrom]
    by_cases hn : n ≤ i
    · rw [if_pos hn]
    · rw [if_neg hn, h i (lt_of_not_le hn), if_neg (by simp), ih]

theorem findAll_eq_nil (n : Nat) (m : Nat → Bool) (step : Nat)
    (h : ∀ i, i < n → m i = false) : findAll n m step = [] :=
  scanFrom_eq_nil n m step h _ 0

theorem mem_windowCandidates_validate (data : List Nat) (pos : Nat)
    (g : List Nat) (p : Int) (h : (g, p) ∈ windowCandidates data pos) :
    validate_guid g = true := by
  simp only [windowCandidates, List.mem_filterMap] at h
  obtain ⟨j, _, hj⟩ := h
  by_cases hv : validate_guid (guidAt ((data.drop (pos - 512)).take (pos + 512 - (pos - 512))) j)
  · rw [if_pos hv] at hj
    cases hj
    exact hv
  · rw [if_neg hv] at hj
    cases hj

theorem mem_parse_validate (data : List Nat) (g : List Nat) (p : Int)
    (h : (g, p) ∈ parse_tracev3_guids data) : validate_guid g = true := by
  simp only [parse_tracev3_guids, List.mem_flatMap] at h
  obtain ⟨pos, _, hmem⟩ := h
  exact mem_windowCandidates_validate data pos g p hmem

theorem mem_extract_validate (data : List Nat) (pos : Nat) (c : GCand)
    (h : c ∈ extract_guid_candidates data pos) :
    validate_guid_structure c.guid = true := by
  simp only [extract_guid_candidates, List.mem_filterMap] at h
  obtain ⟨j, _, hj⟩ := h
  by_cases hv : validate_guid_structure
      (guidAt ((data.drop (pos - 512)).take (pos + 512 - (pos - 512))) j)
  · rw [if_pos hv] at hj
    cases hj
    exact hv
  · rw [if_neg hv] at hj
    cases hj

theorem head?_mem (l : List α) (a : α) (h : l.head? = some a) : a ∈ l := by
  cases l with
  | nil => cases h
  | cons x xs =>
    cases h
    exact List.mem_cons_self _ _

theorem sortDesc_ne_nil (f : α → Nat) (l : List α) (h : l ≠ []) :
    sortDesc f l ≠ [] := by
  intro hs
  have := length_sortDesc f l
  rw [hs] at this
  exact h (List.length_eq_zero.1 this.symm)

theorem macosScored_ne_nil (c : List Nat × Int) (cs : List (List Nat × Int)) :
    macosScored (c :: cs) ≠ [] := by
  rw [macosScored, List.map_cons, dedupFirst_cons, List.map_cons]
  simp

theorem scoredGroups_ne_nil (c : GCand) (cs : List GCand) :
    scoredGroups (c :: cs) ≠ [] := by
  rw [scoredGroups, List.map_cons, dedupFirst_cons, List.map_cons]
  simp

theorem mem_macosScored_fst (cands : List (List Nat × Int))
    (e : List Nat × Nat) (he : e ∈ macosScored cands) :
    e.1 ∈ cands.map Prod.fst := by
  simp only [macosScored, List.mem_map] at he
  obtain ⟨g, hg, rfl⟩ := he
  exact mem_dedupFirst _ g hg

theorem mem_scoredGroups_guid (cands : List GCand)
    (e : ScoredGuid) (he : e ∈ scoredGroups cands) :
    e.guid ∈ cands.map GCand.guid := by
  simp only [scoredGroups, List.mem_map] at he
  obtain ⟨g, hg, rfl⟩ := he
  exact mem_dedupFirst _ g hg

/-- Field values of a scored group entry: the occurrence count is the
number of candidates carrying that GUID, and the score is the 10/5/3
formula over those candidates. -/
theorem scoredGroups_fields (cands : List GCand) (e : ScoredGuid)
    (he : e ∈ scoredGroups cands) :
    e.count = (cands.filter (fun c => c.guid == e.guid)).length ∧
    e.score = e.count * 10
      + ((cands.filter (fun c => c.guid == e.guid)).filter
          (fun c => c.position.natAbs < 100)).length * 5
      + ((cands.filter (fun c => c.guid == e.guid)).filter
          (fun c => c.position < 0)).length * 3 := by
  simp only [scoredGroups, List.mem_map] at he
  obtain ⟨g, hg, rfl⟩ := he
  refine ⟨rfl, ?_⟩
  show (cands.filter (fun c => c.guid == g)).length * 10
      + (((cands.filter (fun c => c.guid == g)).map GCand.position).filter
          (fun p => p.natAbs < 100)).length * 5
      + (((cands.filter (fun c => c.guid == g)).map GCand.position).filter
          (fun p => p < 0)).length * 3 = _
  rw [List.filter_map, List.filter_map, List.length_map, List.length_map]
  rfl

/-- The three tiers characterised by the score thresholds of
`get_guid_enhanced`. -/
theorem confidenceTier_iff (s : Nat) :
    (confidenceTier s = Tier.high ↔ 30 ≤ s) ∧
    (confidenceTier s = Tier.medium ↔ 15 ≤ s ∧ s < 30) ∧
    (confidenceTier s = Tier.low ↔ s < 15) := by
  unfold confidenceTier
  by_cases h30 : 30 ≤ s
  · simp only [if_pos h30]
    refine ⟨by simp [h30], by simp; omega, by simp; omega⟩
  · by_cases h15 : 15 ≤ s
    · simp only [if_neg h30, if_pos h15]
      refine ⟨by simp [h30], by simp; omega, by simp; omega⟩
    · simp only [if_neg h30, if_neg h15]
      refine ⟨by simp [h30], by simp; omega, by simp; omega⟩

/-! ## Claim theorems -/

/-- C1: for every candidate list, each entry of the Confidence
Scorer's output carries `count` = number of occurrences of its
identifier, `score = count * 10 + 5 * (occurrences with |offset| <
100) + 3 * (occurrences with negative offset)`, and the confidence
tier derived from a score is High iff it is ≥ 30, Medium iff it is in
[15, 30), and Low iff it is < 15. -/
theorem claim_C1 (cands : List GCand) (scored : List ScoredGuid) (e : ScoredGuid)
    (hs : analyze_guid_confidence cands = some scored) (he : e ∈ scored) :
    (e.count = (cands.filter (fun c => c.guid == e.guid)).length ∧
     e.score = e.count * 10
       + ((cands.filter (fun c => c.guid == e.guid)).filter
           (fun c => c.position.natAbs < 100)).length * 5
       + ((cands.filter (fun c => c.guid == e.guid)).filter
           (fun c => c.position < 0)).length * 3) ∧
    ((confidenceTier e.score = Tier.high ↔ 30 ≤ e.score) ∧
     (confidenceTier e.score = Tier.medium ↔ 15 ≤ e.score ∧ e.score < 30) ∧
     (confidenceTier e.score = Tier.low ↔ e.score < 15)) := by
  have hmem : e ∈ scoredGroups cands := by
    cases cands with
    | nil => cases hs
    | cons c cs =>
      have : scored = sortDesc ScoredGuid.score (scoredGroups (c :: cs)) := by
        cases hs
        rfl
      rw [this] at he
      exact (mem_sortDesc _ e _).1 he
  exact ⟨scoredGroups_fields cands e hmem, confidenceTier_iff e.score⟩

/-- Witness for C1 on the concrete candidate list
`[(A, +5), (A, -200)]`: the scorer reports count 2 and score
`2*10 + 1*5 + 1*3 = 28`, a Medium-tier score. -/
theorem claim_C1_witness :
    ((⟨[65], 28, 2⟩ : ScoredGuid).count =
       (([⟨[65], 5⟩, ⟨[65], -200⟩] : List GCand).filter
         (fun c => c.guid == (⟨[65], 28, 2⟩ : ScoredGuid).guid)).length ∧
     (⟨[65], 28, 2⟩ : ScoredGuid).score = (⟨[65], 28, 2⟩ : ScoredGuid).count * 10
       + ((([⟨[65], 5⟩, ⟨[65], -200⟩] : List GCand).filter
           (fun c => c.guid == (⟨[65], 28, 2⟩ : ScoredGuid).guid)).filter
           (fun c => c.position.natAbs < 100)).length * 5
       + ((([⟨[65], 5⟩, ⟨[65], -200⟩] : List GCand).filter
           (fun c => c.guid == (⟨[65], 28, 2⟩ : ScoredGuid).guid)).filter
           (fun c => c.position < 0)).length * 3) ∧
    ((confidenceTier (⟨[65], 28, 2⟩ : ScoredGuid).score = Tier.high ↔
        30 ≤ (⟨[65], 28, 2⟩ : ScoredGuid).score) ∧
     (confidenceTier (⟨[65], 28, 2⟩ : ScoredGuid).score = Tier.medium ↔
        15 ≤ (⟨[65], 28, 2⟩ : ScoredGuid).score ∧
          (⟨[65], 28, 2⟩ : ScoredGuid).score < 30) ∧
     (confidenceTier (⟨[65], 28, 2⟩ : ScoredGuid).score = Tier.low ↔
        (⟨[65], 28, 2⟩ : ScoredGuid).score < 15)) :=
  claim_C1 [⟨[65], 5⟩, ⟨[65], -200⟩] [⟨[65], 28, 2⟩] ⟨[65], 28, 2⟩
    (by decide) (by decide)

/-- C2, counterexample: the scanner of `client/activator.py`
(`get_guid_auto`) keeps a GUID-shaped substring whose version nibble
is `1` (not `4`) in its candidate list — its only filter is the
non-zero-character count.  Here the buffer is the anchor immediately
followed by `11111111-1111-1111-1111-111111111111`, and that string
ends up among the candidates that get scored. -/
theorem claim_C2_counterexample :
    uuidShape badVersionGuid = true ∧
    badVersionGuid.getD 14 0 ≠ 52 ∧
    badVersionGuid ∈ clientCandidates (blSig ++ badVersionGuid) ∧
    clientExtract (blSig ++ badVersionGuid) = some badVersionGuid := by
  refine ⟨by decide, by decide, by decide, by decide⟩

/-- C2, amended: in `client/activator_macos.py` (`validate_guid`) and
`Mac_GUI/activator.py` (`validate_guid_structure`) every candidate
that reaches the scorer passed the structural check, so a GUID-shaped
substring whose version nibble is not `4` or whose variant nibble is
not in {8, 9, A, B} never enters those candidate lists; the simplified
scanner of `client/activator.py` performs no such exclusion. -/
theorem claim_C2_amended (data : List Nat) :
    (∀ g p, (g, p) ∈ parse_tracev3_guids data →
      validate_guid g = true ∧ g.getD 14 0 = 52 ∧
        (g.getD 19 0 = 56 ∨ g.getD 19 0 = 57 ∨ g.getD 19 0 = 65 ∨
          g.getD 19 0 = 66)) ∧
    (∀ pos c, c ∈ extract_guid_candidates data pos →
      validate_guid_structure c.guid = true) := by
  constructor
  · intro g p hmem
    have hv := mem_parse_validate data g p hmem
    have hv' := hv
    rw [validate_guid] at hv'
    simp only [Bool.and_eq_true, Bool.or_eq_true, beq_iff_eq] at hv'
    refine ⟨hv, ?_, ?_⟩ <;> tauto
  · intro pos c hmem
    exact mem_extract_validate data pos c hmem

/-- Witness for the amended C2: on the buffer consisting of the
anchor followed by the sample GUID, the macOS scanner produces exactly
that candidate, and the theorem reports its version nibble `4` and
variant nibble `9`. -/
theorem claim_C2_amended_witness :
    validate_guid sampleGuid = true ∧ sampleGuid.getD 14 0 = 52 ∧
    sampleGuid.getD 19 0 = 57 := by
  have h := (claim_C2_amended (blSig ++ sampleGuid)).1 sampleGuid 17 (by decide)
  refine ⟨h.1, h.2.1, ?_⟩
  rcases h.2.2 with h19 | h19 | h19 | h19 <;> first | exact h19 | (exfalso; revert h19; decide)

/-- C9: a byte buffer with no occurrence of `BLDatabaseManager`
yields an empty candidate list in all three scanners, and every
extraction attempt returns no GUID. -/
theorem claim_C9 (data : List Nat)
    (h : ∀ i, i < data.length → matchSigAt data i = false) :
    parse_tracev3_guids data = [] ∧
    analyze_guids (parse_tracev3_guids data) = none ∧
    (∀ confirmOk, get_guid_enhanced_core confirmOk data = none) ∧
    clientCandidates data = [] ∧
    clientExtract data = none := by
  have hbl : blHits data = [] := findAll_eq_nil _ _ _ h
  have hone : findAll data.length (matchSigAt data) 1 = [] := findAll_eq_nil _ _ _ h
  have hparse : parse_tracev3_guids data = [] := by
    rw [parse_tracev3_guids, hbl]
    rfl
  refine ⟨hparse, by rw [hparse]; rfl, ?_, ?_, ?_⟩
  · intro confirmOk
    have hgui : guiBlHits data = [] := findAll_eq_nil _ _ _ h
    rw [get_guid_enhanced_core, hgui]
    rfl
  · rw [clientCandidates, hone]
    rfl
  · rw [clientExtract, hone]
    rfl

/-- Witness for C9 on the concrete three-byte buffer `[0, 1, 2]`,
which contains no anchor occurrence. -/
theorem claim_C9_witness :
    parse_tracev3_guids [0, 1, 2] = [] ∧
    analyze_guids (parse_tracev3_guids [0, 1, 2]) = none ∧
    (∀ confirmOk, get_guid_enhanced_core confirmOk [0, 1, 2] = none) ∧
    clientCandidates [0, 1, 2] = [] ∧
    clientExtract [0, 1, 2] = none :=
  claim_C9 [0, 1, 2] (by decide)

/-- C10: each scorer returns no decision exactly on the empty
candidate list, and a returned winning identifier always comes from
the input candidate list. -/
theorem claim_C10 (cands : List (List Nat × Int)) (gc : List GCand) :
    (analyze_guids cands = none ↔ cands = []) ∧
    (∀ g, analyze_guids cands = some g → g ∈ cands.map Prod.fst) ∧
    (analyze_guid_confidence gc = none ↔ gc = []) ∧
    (∀ scored e, analyze_guid_confidence gc = some scored →
      scored.head? = some e → e.guid ∈ gc.map GCand.guid) := by
  refine ⟨?_, ?_, ?_, ?_⟩
  · cases cands with
    | nil => simp [analyze_guids]
    | cons c cs =>
      simp only [analyze_guids]
      constructor
      · intro hn
        exfalso
        obtain ⟨a, as, hs⟩ : ∃ a as, sortDesc Prod.snd (macosScored (c :: cs)) = a :: as := by
          cases hs : sortDesc Prod.snd (macosScored (c :: cs)) with
          | nil => exact absurd hs (sortDesc_ne_nil _ _ (macosScored_ne_nil c cs))
          | cons a as => exact ⟨a, as, rfl⟩
        rw [hs] at hn
        cases hn
      · intro hc
        cases hc
  · intro g hg
    cases cands with
    | nil => cases hg
    | cons c cs =>
      simp only [analyze_guids] at hg
      obtain ⟨a, ha, rfl⟩ : ∃ a, (sortDesc Prod.snd (macosScored (c :: cs))).head? = some a ∧ a.1 = g := by
        cases hh : (sortDesc Prod.snd (macosScored (c :: cs))).head? with
        | none => rw [hh] at hg; cases hg
        | some a =>
          rw [hh] at hg
          cases hg
          exact ⟨a, rfl, rfl⟩
      have hmem : a ∈ macosScored (c :: cs) :=
        (mem_sortDesc _ a _).1 (head?_mem _ a ha)
      exact mem_macosScored_fst _ a hmem
  · cases gc with
    | nil => simp [analyze_guid_confidence]
    | cons c cs =>
      simp [analyze_guid_confidence]
  · intro scored e hs he
    cases gc with
    | nil => cases hs
    | cons c cs =>
      have hse : scored = sortDesc ScoredGuid.score (scoredGroups (c :: cs)) := by
        cases hs
        rfl
      rw [hse] at he
      have hmem : e ∈ scoredGroups (c :: cs) :=
        (mem_sortDesc _ e _).1 (head?_mem _ e he)
      exact mem_scoredGroups_guid _ e hmem

/-- Witness for C10: on the one-candidate lists `[(A, 0)]` and
`[{guid := B, position := 0}]` the winners `A` and `B` are members of
the respective inputs. -/
theorem claim_C10_witness :
    ([65] : List Nat) ∈ ([([65], (0 : Int))] : List (List Nat × Int)).map Prod.fst ∧
    ([66] : List Nat) ∈ (([⟨[66], 0⟩] : List GCand)).map GCand.guid := by
  have h := claim_C10 [([65], (0 : Int))] [⟨[66], 0⟩]
  exact ⟨h.2.1 [65] (by decide),
    h.2.2.2 [⟨[66], 15, 1⟩] ⟨[66], 15, 1⟩ (by decide) (by decide)⟩

/-- C8: extraction and scoring are pure functions of the byte buffer,
so two runs on the identical buffer return the identical decision; and
the winning entry of each scorer is the *first-discovered* entry among
those carrying the maximal score (Python's sort is stable and no
secondary key is used, so equal scores are resolved by first-appearance
order — `scoredGroups`/`macosScored` list groups in discovery order). -/
theorem claim_C8 (data : List Nat) (cands : List (List Nat × Int))
    (gc : List GCand) :
    (analyze_guids (parse_tracev3_guids data) =
        analyze_guids (parse_tracev3_guids data) ∧
      ∀ confirmOk, get_guid_enhanced_core confirmOk data =
        get_guid_enhanced_core confirmOk data) ∧
    (∀ scored, analyze_guid_confidence gc = some scored →
      scored.head? = ((scoredGroups gc).filter
        (fun e => e.score == maxKey ScoredGuid.score (scoredGroups gc))).head?) ∧
    (cands ≠ [] →
      analyze_guids cands = (((macosScored cands).filter
        (fun e => e.2 == maxKey Prod.snd (macosScored cands))).head?).map
          Prod.fst) := by
  refine ⟨⟨rfl, fun _ => rfl⟩, ?_, ?_⟩
  · intro scored hs
    cases gc with
    | nil => cases hs
    | cons c cs =>
      have hse : scored = sortDesc ScoredGuid.score (scoredGroups (c :: cs)) := by
        cases hs
        rfl
      rw [hse, sortDesc_head_eq_filter_max _ _ (scoredGroups_ne_nil c cs)]
  · intro hne
    cases cands with
    | nil => exact absurd rfl hne
    | cons c cs =>
      simp only [analyze_guids]
      rw [sortDesc_head_eq_filter_max _ _ (macosScored_ne_nil c cs)]

/-- Witness for C8 on a two-way tie: candidates `[(A, 0), (B, 0)]`
both score 15, and the winner is `A`, the first discovered. -/
theorem claim_C8_witness :
    ([⟨[65], 15, 1⟩, ⟨[66], 15, 1⟩] : List ScoredGuid).head? =
      ((scoredGroups [⟨[65], 0⟩, ⟨[66], 0⟩]).filter
        (fun e => e.score ==
          maxKey ScoredGuid.score (scoredGroups [⟨[65], 0⟩, ⟨[66], 0⟩]))).head? :=
  (claim_C8 [] [] [⟨[65], 0⟩, ⟨[66], 0⟩]).2.1
    [⟨[65], 15, 1⟩, ⟨[66], 15, 1⟩] (by decide)

/-- C3: in both `run` variants no device-side mutation (AFC remove,
push or plist copy) happens unless the downloaded payload passed
validation; a failed validation aborts the run with no device-side
action at all; and validation passes exactly on a well-formed database
whose `asset` table exists and has at least one row. -/
theorem claim_C3 (env : MacosRun.Env) (cenv : ClientRun.Env)
    (db : PayloadDB) (mode : ClientRun.Backend) :
    (∀ a ∈ MacosRun.runFromDownload env, MacosRun.isDeviceMutation a = true →
      validatePayload env.db = true) ∧
    (env.downloadOk = true → validatePayload env.db = false →
      MacosRun.runFromDownload env =
        [.download true, .validationFailed, .fatalAbort]) ∧
    (validatePayload db = false →
      ClientRun.runFromValidate cenv db mode = ([], true)) ∧
    (db.wellFormed = true → db.hasAssetTable = true → 0 < db.assetRows →
      validatePayload db = true) ∧
    (validatePayload db = true →
      db.hasAssetTable = true ∧ 0 < db.assetRows) := by
  refine ⟨?_, ?_, ?_, ?_, ?_⟩
  · intro a ha hmut
    by_cases hv : validatePayload env.db
    · exact hv
    · exfalso
      by_cases hd : env.downloadOk
      · rw [MacosRun.runFromDownload] at ha
        simp only [hd, hv, Bool.not_true, Bool.not_false, if_neg, if_pos] at ha
        simp at ha
        rcases ha with rfl | rfl | rfl <;> simp [MacosRun.isDeviceMutation] at hmut
      · rw [MacosRun.runFromDownload] at ha
        simp only [Bool.not_eq_true] at hd
        rw [hd] at ha
        simp at ha
        rcases ha with rfl | rfl <;> simp [MacosRun.isDeviceMutation] at hmut
  · intro hd hv
    rw [MacosRun.runFromDownload, hd, hv]
    rfl
  · intro hv
    rw [ClientRun.runFromValidate, hv]
    rfl
  · intro h1 h2 h3
    rw [validatePayload, h1, h2]
    simp [h3]
  · intro hv
    rw [validatePayload] at hv
    simp only [Bool.and_eq_true, decide_eq_true_eq] at hv
    exact ⟨hv.1.2, hv.2⟩

/-- Witness for C3: a database with the `asset` table absent aborts
the macOS run right after validation with no device action, and a
well-formed database with 3 asset rows passes validation. -/
theorem claim_C3_witness :
    MacosRun.runFromDownload ⟨true, ⟨true, false, 0⟩, true, true, true⟩ =
      [.download true, .validationFailed, .fatalAbort] ∧
    validatePayload ⟨true, true, 3⟩ = true := by
  have h1 := claim_C3 ⟨true, ⟨true, false, 0⟩, true, true, true⟩
    ⟨false, fun _ => false, false, true⟩ ⟨true, true, 3⟩ .cmd
  exact ⟨h1.2.1 rfl (by decide), h1.2.2.2.1 rfl rfl (by decide)⟩

/-- C5: once the mount backend fails to mount at the upload step (the
mount point is not already mounted and all 5 `ifuse` attempts fail),
the session's backend becomes the command backend and every transport
operation of the rest of the run is carried by the command backend;
a session already on the command backend never leaves it. -/
theorem claim_C5 (env : ClientRun.Env) :
    (ClientRun.mount_afc env .ifuse = false ↔
      env.alreadyMounted = false ∧ ∀ i, i < 5 → env.ifuseTry i = false) ∧
    (ClientRun.mount_afc env .ifuse = false →
      (ClientRun.uploadPhase env .ifuse).1 = .cmd ∧
      ∀ e ∈ (ClientRun.uploadPhase env .ifuse).2.1, e.1 = ClientRun.Backend.cmd) ∧
    ((ClientRun.uploadPhase env .cmd).1 = .cmd ∧
      ∀ e ∈ (ClientRun.uploadPhase env .cmd).2.1, e.1 = ClientRun.Backend.cmd) := by
  refine ⟨?_, ?_, ?_⟩
  · rw [ClientRun.mount_afc]
    constructor
    · intro h
      rcases Bool.or_eq_false_iff.1 h with ⟨h1, h2⟩
      refine ⟨h1, ?_⟩
      intro i hi
      by_cases hti : env.ifuseTry i = true
      · exfalso
        have : (List.range 5).any env.ifuseTry = true :=
          List.any_eq_true.2 ⟨i, List.mem_range.2 hi, hti⟩
        rw [this] at h2
        cases h2
      · exact Bool.not_eq_true _ ▸ hti
    · intro ⟨h1, h2⟩
      rw [h1]
      simp only [Bool.false_or]
      rw [List.any_eq_false]
      intro i hi
      rw [h2 i (List.mem_range.1 hi)]
      simp
  · intro hm
    rw [ClientRun.uploadPhase, hm]
    exact ⟨rfl, by intro e he; simp at he; rcases he with rfl | rfl <;> rfl⟩
  · rw [ClientRun.uploadPhase]
    exact ⟨rfl, by intro e he; simp at he; rcases he with rfl | rfl <;> rfl⟩

/-- Witness for C5: with nothing mounted and every `ifuse` attempt
failing, the upload step downgrades the session to the command
backend. -/
theorem claim_C5_witness :
    ClientRun.mount_afc ⟨false, fun _ => false, false, true⟩ .ifuse = false ∧
    (ClientRun.uploadPhase ⟨false, fun _ => false, false, true⟩ .ifuse).1 =
      ClientRun.Backend.cmd := by
  have h := claim_C5 ⟨false, fun _ => false, false, true⟩
  have hm : ClientRun.mount_afc ⟨false, fun _ => false, false, true⟩ .ifuse = false :=
    h.1.2 ⟨rfl, fun i _ => rfl⟩
  exact ⟨hm, (h.2.1 hm).1⟩

theorem loopAux_count_le (env : Retry.Env) :
    ∀ fuel count, (Retry.loopAux env count fuel).2.1 ≤ count + fuel := by
  intro fuel
  induction fuel with
  | zero => intro count; exact Nat.le_refl _
  | succ fuel ih =>
    intro count
    rw [Retry.loopAux]
    by_cases hc : 10 ≤ count
    · rw [if_pos hc]
      show count ≤ count + (fuel + 1)
      omega
    · rw [if_neg hc]
      cases har : env.attemptResult (count + 1) with
      | some g =>
        show count + 1 ≤ count + (fuel + 1)
        omega
      | none =>
        by_cases hk : count + 1 < 10
        · rw [if_pos hk]
          show (Retry.loopAux env (count + 1) fuel).2.1 ≤ count + (fuel + 1)
          have := ih (count + 1)
          omega
        · rw [if_neg hk]
          show count + 1 ≤ count + (fuel + 1)
          omega

theorem loopAux_all_fail (env : Retry.Env)
    (hall : ∀ k, 1 ≤ k → k ≤ 10 → env.attemptResult k = none) :
    ∀ fuel count, count + fuel = 10 → 1 ≤ fuel →
      (Retry.loopAux env count fuel).1 = none ∧
      (Retry.loopAux env count fuel).2.1 = 10 ∧
      Retry.rebootsIn (Retry.loopAux env count fuel).2.2 = fuel - 1 ∧
      Retry.attemptsIn (Retry.loopAux env count fuel).2.2 = fuel := by
  intro fuel
  induction fuel with
  | zero => intro count _ h1; omega
  | succ fuel ih =>
    intro count hsum _
    have hc : ¬10 ≤ count := by omega
    rw [Retry.loopAux, if_neg hc, hall (count + 1) (by omega) (by omega)]
    by_cases hk : count + 1 < 10
    · rw [if_pos hk]
      have hrec := ih (count + 1) (by omega) (by omega)
      refine ⟨hrec.1, hrec.2.1, ?_, ?_⟩
      · show Retry.rebootsIn (Retry.loopAux env (count + 1) fuel).2.2 + 1 = _
        omega
      · show Retry.attemptsIn (Retry.loopAux env (count + 1) fuel).2.2 + 1 = _
        omega
    · rw [if_neg hk]
      refine ⟨rfl, ?_, ?_, ?_⟩
      · show count + 1 = 10
        omega
      · show (0 : Nat) = fuel + 1 - 1
        omega
      · show (1 : Nat) = fuel + 1
        omega

theorem loopAux_success (env : Retry.Env) (k : Nat) (g : List Nat)
    (hk : k ≤ 10)
    (hfail : ∀ j, 1 ≤ j → j < k → env.attemptResult j = none)
    (hsucc : env.attemptResult k = some g) :
    ∀ fuel count, count + fuel = 10 → count < k →
      (Retry.loopAux env count fuel).1 = some g ∧
      (Retry.loopAux env count fuel).2.1 = k ∧
      Retry.rebootsIn (Retry.loopAux env count fuel).2.2 = k - count - 1 ∧
      Retry.attemptsIn (Retry.loopAux env count fuel).2.2 = k - count := by
  intro fuel
  induction fuel with
  | zero => intro count hsum hck; omega
  | succ fuel ih =>
    intro count hsum hck
    have hc : ¬10 ≤ count := by omega
    rw [Retry.loopAux, if_neg hc]
    by_cases hek : count + 1 = k
    · rw [hek, hsucc]
      refine ⟨rfl, rfl, ?_, ?_⟩
      · show (0 : Nat) = k - count - 1
        omega
      · show (1 : Nat) = k - count
        omega
    · rw [hfail (count + 1) (by omega) (by omega), if_pos (by omega)]
      have hrec := ih (count + 1) (by omega) (by omega)
      refine ⟨hrec.1, hrec.2.1, ?_, ?_⟩
      · show Retry.rebootsIn (Retry.loopAux env (count + 1) fuel).2.2 + 1 = _
        omega
      · show Retry.attemptsIn (Retry.loopAux env (count + 1) fuel).2.2 + 1 = _
        omega

theorem macosLoopAux_all_fail (env : Retry.Env)
    (hall : ∀ k, 1 ≤ k → k ≤ 10 → env.attemptResult k = none) :
    ∀ fuel attempt, attempt + fuel = 11 → 1 ≤ attempt →
      (Retry.macosLoopAux env attempt fuel).1 = Except.error () ∧
      Retry.attemptsIn (Retry.macosLoopAux env attempt fuel).2 = fuel := by
  intro fuel
  induction fuel with
  | zero => intro attempt _ _; exact ⟨rfl, rfl⟩
  | succ fuel ih =>
    intro attempt hsum h1
    have hc : ¬10 < attempt := by omega
    rw [Retry.macosLoopAux, if_neg hc, hall attempt (by omega) (by omega)]
    by_cases hk : attempt < 10
    · rw [if_pos hk]
      have hrec := ih (attempt + 1) (by omega) (by omega)
      refine ⟨hrec.1, ?_⟩
      show Retry.attemptsIn (Retry.macosLoopAux env (attempt + 1) fuel).2 + 1 = _
      omega
    · rw [if_neg hk]
      have : fuel = 0 := by omega
      subst this
      exact ⟨rfl, rfl⟩

/-- C4, counterexample: in `client/activator_macos.py`, exhausting all
10 automatic attempts does *not* fall back to manual GUID entry — the
loop performs its 10 attempts and then raises (`RuntimeError`), which
propagates to the fatal handler; `get_guid_manual` is never invoked on
this path. -/
theorem claim_C4_counterexample :
    (Retry.macos_get_guid_auto Retry.envAllFail).1 = Except.error () ∧
    Retry.attemptsIn (Retry.macos_get_guid_auto Retry.envAllFail).2 = 10 :=
  ⟨rfl, rfl⟩

/-- C4, amended: both automatic loops perform at most 10
log-collect-and-extract attempts, rebooting, re-detecting and waiting
after each failed attempt before the last; when the k-th attempt is
the first to succeed the loop stops there after k−1 reboots.  On
exhaustion the GUI variant returns `None` and its `run` falls back to
manual GUID entry, while the macOS client raises a fatal error
instead. -/
theorem claim_C4_amended (env : Retry.Env) (manualG : List Nat) :
    ((Retry.get_guid_auto_with_retry env).2.1 ≤ 10) ∧
    ((∀ k, 1 ≤ k → k ≤ 10 → env.attemptResult k = none) →
      (Retry.get_guid_auto_with_retry env).1 = none ∧
      (Retry.get_guid_auto_with_retry env).2.1 = 10 ∧
      Retry.rebootsIn (Retry.get_guid_auto_with_retry env).2.2 = 9 ∧
      Retry.attemptsIn (Retry.get_guid_auto_with_retry env).2.2 = 10 ∧
      Retry.guiGuidStep env manualG = (manualG, true) ∧
      (Retry.macos_get_guid_auto env).1 = Except.error ()) ∧
    (∀ k g, 1 ≤ k → k ≤ 10 →
      (∀ j, 1 ≤ j → j < k → env.attemptResult j = none) →
      env.attemptResult k = some g →
      (Retry.get_guid_auto_with_retry env).1 = some g ∧
      (Retry.get_guid_auto_with_retry env).2.1 = k ∧
      Retry.rebootsIn (Retry.get_guid_auto_with_retry env).2.2 = k - 1 ∧
      Retry.attemptsIn (Retry.get_guid_auto_with_retry env).2.2 = k ∧
      Retry.guiGuidStep env manualG = (g, false)) := by
  refine ⟨?_, ?_, ?_⟩
  · have := loopAux_count_le env 10 0
    simpa [Retry.get_guid_auto_with_retry] using this
  · intro hall
    have h := loopAux_all_fail env hall 10 0 rfl (by omega)
    have hm := macosLoopAux_all_fail env hall 10 1 rfl (by omega)
    have hg : Retry.get_guid_auto_with_retry env = Retry.loopAux env 0 10 := rfl
    refine ⟨h.1, h.2.1, h.2.2.1, h.2.2.2, ?_, hm.1⟩
    rw [Retry.guiGuidStep, hg, h.1]
  · intro k g hk1 hk hfail hsucc
    have h := loopAux_success env k g hk hfail hsucc 10 0 rfl (by omega)
    have hg : Retry.get_guid_auto_with_retry env = Retry.loopAux env 0 10 := rfl
    refine ⟨h.1, h.2.1, h.2.2.1, h.2.2.2, ?_⟩
    rw [Retry.guiGuidStep, hg, h.1]

/-- Witness for the amended C4: when every attempt fails, the GUI loop
stops after exactly 10 attempts and 9 reboots, returns no GUID, and
`run` uses the manually entered GUID; the macOS loop ends in the
raised error. -/
theorem claim_C4_amended_witness :
    (Retry.get_guid_auto_with_retry Retry.envAllFail).1 = none ∧
    (Retry.get_guid_auto_with_retry Retry.envAllFail).2.1 = 10 ∧
    Retry.rebootsIn (Retry.get_guid_auto_with_retry Retry.envAllFail).2.2 = 9 ∧
    Retry.attemptsIn (Retry.get_guid_auto_with_retry Retry.envAllFail).2.2 = 10 ∧
    Retry.guiGuidStep Retry.envAllFail sampleGuid = (sampleGuid, true) ∧
    (Retry.macos_get_guid_auto Retry.envAllFail).1 = Except.error () := by
  have h := (claim_C4_amended Retry.envAllFail sampleGuid).2.1
    (fun k _ _ => rfl)
  exact h

/-- C6, counterexample: in `client/activator_macos.py`
(`collect_and_extract_guid`), when the log-collection command fails
after creating the archive directory, the attempt returns with the
directory still on disk — the `finally` cleanup only guards the
parsing phase, not the collect-failure exit. -/
theorem claim_C6_counterexample :
    (Cleanup.macosAttempt ⟨false, true, true, none⟩ false).1 = none ∧
    (Cleanup.macosAttempt ⟨false, true, true, none⟩ false).2.1 = true :=
  ⟨rfl, rfl⟩

/-- C6, amended: the GUI variant (`get_guid_enhanced`) removes the
per-attempt log archive on every exit path; the client variants remove
it on the paths their `try/finally` covers (the macOS client after a
successful collect with the tracev3 present, `client/activator.py` on
every path after a successful collect), while a failed collect can
leave the directory behind, to be removed at the start of the next
attempt. -/
theorem claim_C6_amended (env : Cleanup.Env) (d0 : Bool) :
    ((Cleanup.guiAttempt env).2.1 = false) ∧
    (env.collectOk = true → env.tracePresent = true →
      (Cleanup.macosAttempt env d0).2.1 = false) ∧
    (env.collectOk = true → (Cleanup.clientAttempt env d0).2.1 = false) ∧
    (d0 = true →
      (Cleanup.macosAttempt env d0).2.2.head? = some Cleanup.Ev.preRemoveDir) := by
  refine ⟨?_, ?_, ?_, ?_⟩
  · rw [Cleanup.guiAttempt]
    by_cases hco : env.collectOk
    · rw [hco]
      by_cases htr : env.tracePresent
      · rw [htr]
        rfl
      · simp only [Bool.not_eq_true] at htr
        rw [htr]
        rfl
    · simp only [Bool.not_eq_true] at hco
      rw [hco]
      by_cases hdc : env.dirCreated <;> simp [hdc]
  · intro hco htr
    rw [Cleanup.macosAttempt, hco, htr]
    rfl
  · intro hco
    rw [Cleanup.clientAttempt, hco]
    by_cases htr : env.tracePresent
    · rw [htr]
      rfl
    · simp only [Bool.not_eq_true] at htr
      rw [htr]
      rfl
  · intro hd
    rw [Cleanup.macosAttempt, hd]
    by_cases hco : env.collectOk
    · rw [hco]
      by_cases htr : env.tracePresent
      · rw [htr]
        rfl
      · simp only [Bool.not_eq_true] at htr
        rw [htr]
        rfl
    · simp only [Bool.not_eq_true] at hco
      rw [hco]
      rfl

/-- Witness for the amended C6: a successful attempt (collect ok,
tracev3 present) leaves no directory behind in any variant, and with a
leftover archive present the macOS attempt removes it first. -/
theorem claim_C6_amended_witness :
    (Cleanup.guiAttempt ⟨true, false, true, some sampleGuid⟩).2.1 = false ∧
    (Cleanup.macosAttempt ⟨true, false, true, some sampleGuid⟩ true).2.1 = false ∧
    (Cleanup.clientAttempt ⟨true, false, true, some sampleGuid⟩ true).2.1 = false ∧
    (Cleanup.macosAttempt ⟨true, false, true, some sampleGuid⟩ true).2.2.head? =
      some Cleanup.Ev.preRemoveDir := by
  have h := claim_C6_amended ⟨true, false, true, some sampleGuid⟩ true
  exact ⟨h.1, h.2.1 rfl rfl, h.2.2.1 rfl, h.2.2.2 rfl⟩

/-- C7, counterexample: `client/activator_macos.py` exits with code 1,
not 0, on a user-initiated interrupt (its `KeyboardInterrupt` handler
calls `sys.exit(1)`). -/
theorem claim_C7_counterexample : macosExitCode RunOutcome.interrupted ≠ 0 := by
  decide

/-- C7, amended: all three variants exit 0 on full success and 1 on
any unrecoverable error; on a user-initiated interrupt the GUI and
client variants exit 0, but the macOS client exits 1. -/
theorem claim_C7_amended :
    macGuiExitCode RunOutcome.success = 0 ∧
    macGuiExitCode RunOutcome.interrupted = 0 ∧
    macGuiExitCode RunOutcome.fatalError = 1 ∧
    clientExitCode RunOutcome.success = 0 ∧
    clientExitCode RunOutcome.interrupted = 0 ∧
    clientExitCode RunOutcome.fatalError = 1 ∧
    macosExitCode RunOutcome.success = 0 ∧
    macosExitCode RunOutcome.interrupted = 1 ∧
    macosExitCode RunOutcome.fatalError = 1 := by
  decide

